import Mathlib

/-!
Verification development for the dao-whatsapp database agent.

The definitions below are a shallow embedding of the Python sources:
  src/app/agents/database_agent/utils.py   (validate_field_value, parse_date_string, parse_array_field)
  src/app/agents/database_agent/tools.py   (create_record, update_record, search_records_by_name, confirm_*)
  src/app/agents/database_agent/agent.py   (DatabaseAgent.process_message, _truncate_history)
  src/whatsapp_server.py                   (process_whatsapp_message, the shared global agent)

External collaborators (the SQLAlchemy/Postgres store, the fuzzywuzzy scorer used by
search, json.loads, and the LLM tool loop) are modelled as explicit state or as
function parameters, as noted at each definition.
-/

namespace Dao

/-- Python whitespace characters recognised by str.strip and the \s regex class
(ASCII subset; the sources only ever strip ASCII whitespace). -/
def pyIsSpace (c : Char) : Bool :=
  c = ' ' || c = '\t' || c = '\n' || c = '\x0d' || c = '\x0b' || c = '\x0c'

/-- Python str.lower restricted to ASCII letters (all enumeration values and
vocabulary words in the sources are ASCII apart from a lowercase ü, which
str.lower leaves unchanged, as does this function). -/
def pyCharLower (c : Char) : Char :=
  if 'A' ≤ c && c ≤ 'Z' then Char.ofNat (c.toNat + 32) else c

/-- Python str.lower. -/
def pyLower (s : String) : String := ⟨s.data.map pyCharLower⟩

/-- Python str.strip(). -/
def pyStrip (s : String) : String :=
  ⟨((s.data.dropWhile pyIsSpace).reverse.dropWhile pyIsSpace).reverse⟩

/-- A Python datetime value as produced by datetime.strptime in
utils.parse_date_string. -/
structure PyDateTime where
  year : Nat
  month : Nat
  day : Nat
  hour : Nat
  minute : Nat
  second : Nat
  micro : Nat
deriving DecidableEq, Repr

/-- Zero-padded two-digit rendering. -/
def pad2 (n : Nat) : String := if n < 10 then "0" ++ toString n else toString n

/-- Python str() of a datetime (isoformat with space separator; fraction shown
only when nonzero, as Python does). -/
def PyDateTime.pyRender (d : PyDateTime) : String :=
  toString d.year ++ "-" ++ pad2 d.month ++ "-" ++ pad2 d.day ++ " " ++
    pad2 d.hour ++ ":" ++ pad2 d.minute ++ ":" ++ pad2 d.second ++
    (if d.micro = 0 then "" else "." ++ toString d.micro)

/-- A scalar Python value as carried in the tool payloads. -/
inductive Scalar where
  | vnull : Scalar
  | str (s : String) : Scalar
  | num (n : Int) : Scalar
  | dt (d : PyDateTime) : Scalar
deriving DecidableEq, Repr

/-- Dynamic values carried in the untyped field-maps the tools receive
(tool-call JSON payloads) and store in records: scalars, or lists of scalars
(tags and relation-id arrays; no payload in this system nests deeper). -/
inductive Value where
  | scalar (v : Scalar) : Value
  | arr (elems : List Scalar) : Value
deriving DecidableEq, Repr

/-- Python None. -/
def Value.vnull : Value := .scalar .vnull

/-- A string value. -/
def Value.str (s : String) : Value := .scalar (.str s)

/-- Python truthiness of a scalar. -/
def Scalar.truthy : Scalar → Bool
  | .vnull => false
  | .str s => s ≠ ""
  | .num n => n ≠ 0
  | .dt _ => true

/-- Python truthiness of a dynamic value. -/
def Value.truthy : Value → Bool
  | .scalar v => v.truthy
  | .arr l => !l.isEmpty

/-- Python str() of a scalar. -/
def Scalar.pyStr : Scalar → String
  | .vnull => "None"
  | .str s => s
  | .num n => toString n
  | .dt d => d.pyRender

/-- Python repr() of a scalar as rendered inside str(list). -/
def Scalar.pyRepr : Scalar → String
  | .str s => "\x27" ++ s ++ "\x27"
  | v => v.pyStr

/-- Python str() of a dynamic value. -/
def Value.pyStr : Value → String
  | .scalar v => v.pyStr
  | .arr l => "[" ++ String.intercalate ", " (l.map Scalar.pyRepr) ++ "]"

/-- An untyped field-map (a Python dict in insertion order;
keys are unique in a Python dict). -/
abbrev FieldMap := List (String × Value)

/-- data.get(k): the value stored at key k, or None when absent. -/
def pyGet (data : FieldMap) (k : String) : Value :=
  match data.find? (fun kv => kv.1 == k) with
  | some kv => kv.2
  | none => .vnull

/-- data[k] = v on a Python dict: replace in place, else append. -/
def fieldSet (data : FieldMap) (k : String) (v : Value) : FieldMap :=
  match data with
  | [] => [(k, v)]
  | (k2, v2) :: rest => if k2 == k then (k, v) :: rest else (k2, v2) :: fieldSet rest k v

/-! ### utils.parse_date_string

A faithful model of datetime.strptime restricted to the five format strings the
source tries. CPython strptime is regex based; the digit-count and value-range
alternations of each directive are reproduced below, as is the rule that a
literal space in the format matches one or more whitespace characters. Seconds
60 and 61 match the %S pattern but are then rejected by the datetime
constructor, so they are rejected here directly (the net result, format
failure, is identical). -/

def isDigitCh (c : Char) : Bool := '0' ≤ c && c ≤ '9'

def digitVal (c : Char) : Nat := c.toNat - '0'.toNat

/-- %Y: exactly four digits. -/
def parseYear : List Char → Option (Nat × List Char)
  | a :: b :: c :: d :: rest =>
    if isDigitCh a && isDigitCh b && isDigitCh c && isDigitCh d then
      some (digitVal a * 1000 + digitVal b * 100 + digitVal c * 10 + digitVal d, rest)
    else none
  | _ => none

/-- A one-or-two digit directive: CPython regex alternations try the two-digit
forms first, then a single digit; with the fixed separators of these formats
no backtracking can change the outcome. -/
def parse12 (twoOk : Char → Nat → Bool) (oneOk : Nat → Bool) :
    List Char → Option (Nat × List Char)
  | a :: b :: rest =>
    if isDigitCh a && isDigitCh b && twoOk a (digitVal a * 10 + digitVal b) then
      some (digitVal a * 10 + digitVal b, rest)
    else if isDigitCh a && oneOk (digitVal a) then some (digitVal a, b :: rest)
    else none
  | [a] => if isDigitCh a && oneOk (digitVal a) then some (digitVal a, []) else none
  | [] => none

/-- %m: 1[0-2] | 0[1-9] | [1-9]. -/
def parseMonth : List Char → Option (Nat × List Char) :=
  parse12 (fun a v => (a = '1' && v ≤ 12) || (a = '0' && 1 ≤ v)) (fun d => 1 ≤ d)

/-- %d: 3[01] | [12]\d | 0[1-9] | [1-9]. -/
def parseDay : List Char → Option (Nat × List Char) :=
  parse12 (fun a v => (a = '3' && v ≤ 31) || a = '1' || a = '2' || (a = '0' && 1 ≤ v))
    (fun d => 1 ≤ d)

/-- %H: 2[0-3] | [0-1]\d | \d. -/
def parseHour : List Char → Option (Nat × List Char) :=
  parse12 (fun a v => (a = '2' && v ≤ 23) || a = '0' || a = '1') (fun _ => true)

/-- %M: [0-5]\d | \d. -/
def parseMinute : List Char → Option (Nat × List Char) :=
  parse12 (fun _ v => v ≤ 59) (fun _ => true)

/-- %S (with the datetime constructor rejecting leap seconds, see above). -/
def parseSecond : List Char → Option (Nat × List Char) :=
  parse12 (fun _ v => v ≤ 59) (fun _ => true)

/-- A literal character of the format string. -/
def parseLit (c : Char) : List Char → Option (List Char)
  | a :: rest => if a = c then some rest else none
  | [] => none

/-- A literal space in a strptime format matches one or more whitespace. -/
def parseSpaces : List Char → Option (List Char)
  | a :: rest => if pyIsSpace a then some (rest.dropWhile pyIsSpace) else none
  | [] => none

/-- %f: one to six digits, zero-padded on the right to microseconds. -/
def parseFrac (cs : List Char) : Option (Nat × List Char) :=
  let digs := (cs.takeWhile isDigitCh).take 6
  if digs.isEmpty then none
  else
    let v := digs.foldl (fun acc c => acc * 10 + digitVal c) 0
    some (v * 10 ^ (6 - digs.length), cs.drop digs.length)

def isLeapYear (y : Nat) : Bool := (y % 4 = 0 && y % 100 ≠ 0) || y % 400 = 0

def daysInMonth (y m : Nat) : Nat :=
  if m = 2 then (if isLeapYear y then 29 else 28)
  else if m = 4 || m = 6 || m = 9 || m = 11 then 30 else 31

/-- The validation performed by the datetime constructor (the directive
patterns already bound month, hour, minute and second). -/
def mkDateTime (y mo d h mi s micro : Nat) : Option PyDateTime :=
  if 1 ≤ y && y ≤ 9999 && 1 ≤ d && d ≤ daysInMonth y mo then
    some ⟨y, mo, d, h, mi, s, micro⟩
  else none

def parseDatePart (cs : List Char) : Option (Nat × Nat × Nat × List Char) := do
  let (y, cs) ← parseYear cs
  let cs ← parseLit '-' cs
  let (mo, cs) ← parseMonth cs
  let cs ← parseLit '-' cs
  let (d, cs) ← parseDay cs
  pure (y, mo, d, cs)

def parseTimePart (cs : List Char) : Option (Nat × Nat × Nat × List Char) := do
  let (h, cs) ← parseHour cs
  let cs ← parseLit ':' cs
  let (mi, cs) ← parseMinute cs
  let cs ← parseLit ':' cs
  let (s, cs) ← parseSecond cs
  pure (h, mi, s, cs)

/-- strptime against one of the four datetime formats: separator sep between
date and time (a literal space matches any whitespace run), optional .%f. -/
def strptimeDateTime (sep : Char) (frac : Bool) (s : String) : Option PyDateTime := do
  let cs := s.data
  let (y, mo, d, cs) ← parseDatePart cs
  let cs ← (if sep = ' ' then parseSpaces cs else parseLit sep cs)
  let (h, mi, sec, cs) ← parseTimePart cs
  if frac then
    let cs ← parseLit '.' cs
    let (f, cs) ← parseFrac cs
    if cs.isEmpty then mkDateTime y mo d h mi sec f else none
  else
    if cs.isEmpty then mkDateTime y mo d h mi sec 0 else none

/-- strptime against the date-only format %Y-%m-%d, giving midnight. -/
def strptimeDateOnly (s : String) : Option PyDateTime := do
  let (y, mo, d, cs) ← parseDatePart s.data
  if cs.isEmpty then mkDateTime y mo d 0 0 0 0 else none

/-- utils.parse_date_string: empty string gives None; a string containing a
capital T or a space is tried against the four datetime formats in order; on
failure (and always otherwise) the date-only format is tried; otherwise None. -/
def parse_date_string (date_str : String) : Option PyDateTime :=
  if date_str = "" then none
  else if date_str.data.contains 'T' || date_str.data.contains ' ' then
    strptimeDateTime 'T' false date_str <|>
    strptimeDateTime ' ' false date_str <|>
    strptimeDateTime 'T' true date_str <|>
    strptimeDateTime ' ' true date_str <|>
    strptimeDateOnly date_str
  else strptimeDateOnly date_str

/-! ### utils.VALID_STATUS and utils.validate_field_value -/

/-- The per-table enumerations of utils.VALID_STATUS, in declared order. -/
def VALID_STATUS : List (String × List (String × List String)) := [
  ("clients", [("type", ["Family", "Privat", "Internal", "External"]),
               ("status", ["Active", "Archive"])]),
  ("goals", [("status", ["Not started", "In progress", "Done"])]),
  ("projects", [("status", ["Not started", "In progress", "Stuck", "Done"]),
                ("priority", ["P1", "P2", "P3"]),
                ("client_v2", ["Mama Hanh", "Ms Hanh", "Circus Group", "Fully AI",
                               "Gastrofüsterer", "DAO OS", "Mama Le Bao", "Asia Hung",
                               "Clinic OS", "Internal"])]),
  ("tasks", [("status", ["Inbox", "Paused/Later (P3)", "Next (P2)", "Now (P1)",
                         "In progress", "Draft Review", "Waiting for Feedback", "Done"]),
             ("days", ["Monday", "Tuesday", "Wednesday", "Thursday", "Friday",
                       "Saturday", "Sunday"]),
             ("recur_unit", ["Day(s)", "Week(s)", "Month(s)", "Month(s) on the First Weekday",
                             "Month(s) on the Last Weekday", "Month(s) on the Last Day",
                             "Year(s)"])]),
  ("milestones", [("status", ["Not started", "Backlog", "Paused", "In progress",
                              "High Priority", "Under Review", "Shipped", "Done"])]),
  ("assets", [("type", ["Social Media Post", "Image", "Blog", "Doc", "Loom Video",
                        "YouTube Video", "Sheets", "Notion Page"])]),
  ("briefings", [("client_type", ["Family", "Privat", "Internal", "External"])])]

/-- Membership lookup in an association list (Python dict indexing). -/
def lookupStr {α : Type} (k : String) : List (String × α) → Option α
  | [] => none
  | (k2, v) :: rest => if k2 == k then some v else lookupStr k rest

/-- The keys of utils.MODEL_MAP. -/
def MODEL_MAP_TABLES : List String :=
  ["users", "clients", "goals", "projects", "tasks", "milestones", "assets",
   "briefings", "meeting_transcripts"]

/-- Outcome of utils.validate_field_value. The source builds is_valid False
results from fuzz.ratio scores, but utils.py never imports fuzz (fuzzywuzzy
appears in tools.py and db_model.py only), so at runtime every evaluation of
that branch raises NameError before any invalid result can be produced;
nameError models that exception. The invalid constructor embeds the
unreachable is_valid False dictionaries for structural completeness. -/
inductive ValidationResult where
  | valid (suggested_value : String)
  | invalid (suggested_value : String) (similarity : Nat)
  | nameError
deriving DecidableEq, Repr

/-- The exact case-insensitive match loop of validate_field_value: the first
legal value whose lowercasing equals the lowercased input. -/
def findExactMatch (value_lower : String) : List String → Option String
  | [] => none
  | v :: rest => if value_lower == pyLower v then some v else findExactMatch value_lower rest

/-- utils.validate_field_value. Tables or fields with no enumeration pass the
value through as valid. An exact case-insensitive match returns the canonical
stored casing. Any other value reaches the fuzzy-match loop, whose first
expression evaluates the unbound name fuzz and raises NameError. -/
def validate_field_value (table field value : String) : ValidationResult :=
  match lookupStr table VALID_STATUS with
  | none => .valid value
  | some table_validations =>
    match lookupStr field table_validations with
    | none => .valid value
    | some valid_values =>
      match findExactMatch (pyLower value) valid_values with
      | some v => .valid v
      | none => .nameError

/-! ### utils.parse_array_field -/

/-- Output of json.loads as consumed by parse_array_field. json.loads is the
Python standard library (external to this repository), so it is passed to the
embedded tools as a function parameter of this type: a JSON array of scalars,
a single scalar, or (none) a JSONDecodeError. -/
inductive JsonOut where
  | arrOut (elems : List Scalar)
  | oneOut (v : Scalar)
deriving DecidableEq, Repr

/-- utils.parse_array_field: None stays None; a list is kept; a string is
JSON-parsed (an array is kept, any other JSON value is wrapped in a list) and
on parse failure split on commas, stripping items and dropping blanks; any
other value is wrapped in a singleton list. -/
def parse_array_field (jsonLoads : String → Option JsonOut) : Value → Option (List Scalar)
  | .scalar .vnull => none
  | .arr l => some l
  | .scalar (.str s) =>
    match jsonLoads s with
    | some (.arrOut l) => some l
    | some (.oneOut v) => some [v]
    | none => some (((((s.splitOn ",").map pyStrip).filter (fun item => item ≠ ""))).map Scalar.str)
  | .scalar v => some [v]

/-! ### The record store

The SQLAlchemy/Postgres store is an external collaborator; it is modelled as
explicit state: per-table record lists plus an autoincrement counter. Each
tool threads the store and returns it unchanged exactly when the source makes
no commit. -/

/-- A stored row: its assigned identifier and its field-map. -/
structure Rec where
  id : Nat
  fields : FieldMap
deriving DecidableEq, Repr

/-- The record store. -/
structure Store where
  tables : List (String × List Rec)
  nextId : Nat
deriving DecidableEq, Repr

/-- All rows of a table. -/
def Store.recordsOf (s : Store) (t : String) : List Rec :=
  (lookupStr t s.tables).getD []

/-- Row count of a table. -/
def Store.countOf (s : Store) (t : String) : Nat := (s.recordsOf t).length

/-- Replace the row list of a table. -/
def setTable : List (String × List Rec) → String → List Rec → List (String × List Rec)
  | [], t, recs => [(t, recs)]
  | (t2, r2) :: rest, t, recs =>
    if t2 == t then (t, recs) :: rest else (t2, r2) :: setTable rest t recs

/-- session.add + session.commit of a new model object: append a row under a
fresh autoincremented identifier. -/
def Store.insertRow (s : Store) (t : String) (d : FieldMap) : Nat × Store :=
  (s.nextId,
   { tables := setTable s.tables t (s.recordsOf t ++ [⟨s.nextId, d⟩]), nextId := s.nextId + 1 })

/-- query(...).filter(id == i).first(). -/
def Store.findRow (s : Store) (t : String) (i : Nat) : Option Rec :=
  (s.recordsOf t).find? (fun r => r.id == i)

/-- Overwrite the fields of the row with identifier i. -/
def Store.setRow (s : Store) (t : String) (i : Nat) (f : FieldMap) : Store :=
  let newRows := (s.recordsOf t).map (fun r => if r.id == i then ⟨i, f⟩ else r)
  { s with tables := setTable s.tables t newRows }

/-! ### tools.py: the database tools -/

/-- A tool result dictionary: every key any of the embedded tools ever sets,
with absent keys as none/false/empty (dict.get on a missing key is falsy). -/
structure ToolResult where
  success : Bool
  error : Option String := none
  record_id : Option Nat := none
  message : Option String := none
  requires_confirmation : Bool := false
  requires_field_confirmation : Bool := false
  pending_table : Option String := none
  pending_record_id : Option Nat := none
  pending_data : Option FieldMap := none
  field : Option String := none
  user_value : Option Value := none
  suggested_value : Option String := none
  records : List FieldMap := []
  count : Nat := 0
  suggestions : Option (List (String × Nat)) := none
deriving DecidableEq, Repr

/-- The invalid-table result shared by the tools. -/
def invalidTableError (table : String) : ToolResult :=
  { success := false,
    error := some ("Invalid table name: " ++ table ++
      ". Valid tables: [\x27users\x27, \x27clients\x27, \x27goals\x27, \x27projects\x27, \x27tasks\x27, \x27milestones\x27, \x27assets\x27, \x27briefings\x27, \x27meeting_transcripts\x27]") }

/-- The keys create_record/update_record route through parse_date_string. -/
def DATE_FIELDS : List String := ["deadline", "due_date", "meeting_date", "date_completed"]

/-- The keys create_record/update_record route through parse_array_field. -/
def ARRAY_FIELDS : List String :=
  ["tags", "project_id", "client_id", "task_id", "milestone_id", "asset_id", "briefing_id",
   "meeting_transcript_id", "goal_id", "owner_id", "assigned_to_id"]

/-- One entry of the processed_data loop shared by create_record and
update_record: date keys through parse_date_string(str(value)) (None when
unparsable), array keys through parse_array_field, all others unchanged. -/
def processField (jsonLoads : String → Option JsonOut) (key : String) (value : Value) : Value :=
  if key ∈ DATE_FIELDS then
    match parse_date_string value.pyStr with
    | some d => .scalar (.dt d)
    | none => .vnull
  else if key ∈ ARRAY_FIELDS then
    match parse_array_field jsonLoads value with
    | some l => .arr l
    | none => .vnull
  else value

/-- The processed_data dict built from data in insertion order. -/
def processData (jsonLoads : String → Option JsonOut) (data : FieldMap) : FieldMap :=
  data.map (fun kv => (kv.1, processField jsonLoads kv.1 kv.2))

/-- The blank-name guard of create_record:
not data.get(name) or not str(data.get(name)).strip(). -/
def blankName (data : FieldMap) : Bool :=
  !(pyGet data "name").truthy || pyStrip (pyGet data "name").pyStr == ""

/-- tools.create_record. Unknown tables are a fatal input error. A blank name
returns the requires_confirmation payload without touching the store. The
name is then validated (the source passes the raw value; no table enumerates
a name field, so only the validity flag is ever read and the value itself is
never inspected); finally the processed record is inserted. The nameError
branch models the NameError from validate_field_value being caught by the
outer except of create_record (proved unreachable for the name field below). -/
def create_record (jsonLoads : String → Option JsonOut) (table : String) (data : FieldMap)
    (store : Store) : ToolResult × Store :=
  if table ∉ MODEL_MAP_TABLES then (invalidTableError table, store)
  else if blankName data then
    ({ success := false, requires_confirmation := true, pending_table := some table,
       pending_data := some data,
       message := some ("⚠️ The \x27name\x27 field is required but was empty. Would you like to proceed with creating the " ++ table ++ " record with an empty name?") }, store)
  else
    match validate_field_value table "name" (pyGet data "name").pyStr with
    | .valid _ =>
      let processed := processData jsonLoads data
      let (rid, store') := store.insertRow table processed
      ({ success := true, record_id := some rid,
         message := some ("Successfully created " ++ table ++ " record with ID " ++ toString rid) },
       store')
    | .invalid sv _ =>
      ({ success := false, requires_field_confirmation := true, pending_table := some table,
         pending_data := some data, field := some "name", user_value := some (pyGet data "name"),
         suggested_value := some sv,
         message := some ("⚠️ Invalid name value: \x27" ++ (pyGet data "name").pyStr ++ "\x27. Did you mean \x27" ++ sv ++ "\x27?") }, store)
    | .nameError =>
      ({ success := false, error := some "Failed to create record: name \x27fuzz\x27 is not defined" },
       store)

/-- Result of the per-field validation loop of update_record: all fields
valid, a first invalid field (in iteration order) with its suggestion, or a
NameError raised by validate_field_value. -/
inductive FieldsCheck where
  | ok
  | bad (field : String) (value : Value) (suggested : String) (sim : Nat)
  | err
deriving DecidableEq, Repr

/-- The for field, value in data.items() validation loop of update_record,
stopping at the first non-valid outcome. -/
def checkFields (table : String) : List (String × Value) → FieldsCheck
  | [] => .ok
  | (f, v) :: rest =>
    match validate_field_value table f v.pyStr with
    | .valid _ => checkFields table rest
    | .invalid sv sim => .bad f v sv sim
    | .nameError => .err

/-- tools.update_record. Unknown table or missing row are fatal errors. Every
provided field is validated first (short-circuit); only when all pass are the
processed fields applied via setattr and committed. The err branch models the
NameError from the unbound fuzz reference being caught by the outer except:
the requires_field_confirmation payload of the bad branch is unreachable at
runtime. -/
def update_record (jsonLoads : String → Option JsonOut) (table : String) (record_id : Nat)
    (data : FieldMap) (store : Store) : ToolResult × Store :=
  if table ∉ MODEL_MAP_TABLES then (invalidTableError table, store)
  else
    match store.findRow table record_id with
    | none =>
      ({ success := false,
         error := some ("No " ++ table ++ " record found with ID " ++ toString record_id) }, store)
    | some record =>
      match checkFields table data with
      | .err =>
        ({ success := false,
           error := some "Failed to update record: name \x27fuzz\x27 is not defined" }, store)
      | .bad f v sv _ =>
        ({ success := false, requires_field_confirmation := true, pending_table := some table,
           pending_record_id := some record_id, pending_data := some data, field := some f,
           user_value := some (.str v.pyStr), suggested_value := some sv,
           message := some ("⚠️ Invalid " ++ f ++ " value: \x27" ++ v.pyStr ++ "\x27. Did you mean \x27" ++ sv ++ "\x27?") }, store)
      | .ok =>
        let processed := processData jsonLoads data
        let newFields := processed.foldl (fun acc kv => fieldSet acc kv.1 kv.2) record.fields
        ({ success := true,
           message := some ("Successfully updated " ++ table ++ " record with ID " ++ toString record_id) },
         store.setRow table record_id newFields)

/-! ### tools.search_records_by_name -/

/-- Python list slicing l[:limit] for an int limit (a negative limit counts
from the end). -/
def pySlice {α : Type} (l : List α) (limit : Int) : List α :=
  if 0 ≤ limit then l.take limit.toNat
  else l.take (l.length - (-limit).toNat)

/-- The name a record contributes to the search loop: the loop guards on a
truthy record.name and then lowercases it, so only nonempty string names
participate (name is a text column). -/
def recSearchName (r : Rec) : Option String :=
  match pyGet r.fields "name" with
  | .scalar (.str s) => if s ≠ "" then some s else none
  | _ => none

/-- The fuzzy-match loop of search_records_by_name: score each named record
with fuzz.partial_ratio over lowercased strings (simOf abstracts the external
fuzzywuzzy scorer) and keep those at or above min_similarity. -/
def searchMatches (simOf : String → String → Nat) (name_query : String) (min_similarity : Int) :
    List Rec → List (Rec × Nat)
  | [] => []
  | r :: rest =>
    match recSearchName r with
    | some nm =>
      let sc := simOf (pyLower name_query) (pyLower nm)
      if min_similarity ≤ (sc : Int) then
        (r, sc) :: searchMatches simOf name_query min_similarity rest
      else searchMatches simOf name_query min_similarity rest
    | none => searchMatches simOf name_query min_similarity rest

/-- Stable insertion keeping existing elements with a greater-or-equal key in
front (Python list.sort with reverse=True is stable). -/
def insertDesc {α : Type} (key : α → Nat) (x : α) : List α → List α
  | [] => [x]
  | y :: ys => if key x ≤ key y then y :: insertDesc key x ys else x :: y :: ys

/-- matches.sort(key=similarity, reverse=True): stable descending sort. -/
def sortDescBy {α : Type} (key : α → Nat) (l : List α) : List α :=
  l.foldl (fun acc x => insertDesc key x acc) []

/-- tools.search_records_by_name. The caller limit is capped at 100, the
scored matches are sorted descending and sliced to the limit; when nothing is
returned but candidates exist, up to 5 suggestions come from process.extract
(extractTop abstracts that external fuzzywuzzy call). -/
def search_records_by_name (simOf : String → String → Nat)
    (extractTop : String → List String → Nat → List (String × Nat))
    (table name_query : String) (limit : Int) (min_similarity : Int)
    (store : Store) : ToolResult :=
  if table ∉ MODEL_MAP_TABLES then invalidTableError table
  else
    let limit := if 100 < limit then 100 else limit
    let all_records := store.recordsOf table
    let matchList := searchMatches simOf name_query min_similarity all_records
    let limited := pySlice (sortDescBy (fun m => m.2) matchList) limit
    let recs := limited.map (fun m => m.1.fields)
    let all_names := all_records.filterMap recSearchName
    let suggestions :=
      if recs.isEmpty && !all_records.isEmpty && !all_names.isEmpty then
        extractTop name_query all_names 5
      else []
    { success := true, records := recs, count := recs.length,
      suggestions := if suggestions.isEmpty then none else some suggestions,
      message := some ("Found " ++ toString recs.length ++ " " ++ table ++ " records matching \x27" ++ name_query ++ "\x27") }

/-! ### tools.py: the confirmation tools -/

/-- tools.confirm_create_with_empty_name: inserts the pending data as-is (no
blank-name guard, no date or array processing). An unknown table raises
KeyError on MODEL_MAP[table], caught by the except into a generic failure. -/
def confirm_create_with_empty_name (table : String) (data : FieldMap) (store : Store) :
    ToolResult × Store :=
  if table ∉ MODEL_MAP_TABLES then
    ({ success := false, error := some ("Failed to create record: \x27" ++ table ++ "\x27") }, store)
  else
    let (rid, store') := store.insertRow table data
    ({ success := true, record_id := some rid,
       message := some ("Successfully created " ++ table ++ " record with ID " ++ toString rid ++ " (empty name)") },
     store')

/-- tools.confirm_create_with_corrected_field: overwrite the field with the
corrected value and re-run create_record. -/
def confirm_create_with_corrected_field (jsonLoads : String → Option JsonOut) (table : String)
    (data : FieldMap) (field corrected_value : String) (store : Store) : ToolResult × Store :=
  create_record jsonLoads table (fieldSet data field (.str corrected_value)) store

/-- tools.confirm_field_correction: overwrite the field with the corrected
value and re-run update_record. -/
def confirm_field_correction (jsonLoads : String → Option JsonOut) (table : String)
    (record_id : Nat) (field corrected_value : String) (data : FieldMap) (store : Store) :
    ToolResult × Store :=
  update_record jsonLoads table record_id (fieldSet data field (.str corrected_value)) store

/-! ### agent.py: messages, history truncation, the DatabaseAgent -/

/-- A langchain message as held in DatabaseAgent.conversation_history. -/
inductive Msg where
  | system (content : String) : Msg
  | human (content : String) : Msg
  | ai (content : String) (tool_calls : List String) : Msg
  | tool (content : String) : Msg
deriving DecidableEq, Repr

instance : Inhabited Msg := ⟨.system ""⟩

/-- The is_tool_message helper of _truncate_history: type equal to tool, or
"tool" inside the lowercased class name — true exactly for ToolMessage among
the four message classes. -/
def is_tool_message : Msg → Bool
  | .tool _ => true
  | _ => false

/-- isinstance(m, AIMessage) and m.tool_calls nonempty. -/
def isAiWithCalls : Msg → Bool
  | .ai _ calls => !calls.isEmpty
  | _ => false

/-- The recent-tail size of _truncate_history (excluding the system prompt). -/
def MAX_KEEP : Nat := 16

/-- The backwards while loop of _truncate_history: starting at index i, walk
down towards 0 and return the first index holding an AIMessage with
tool_calls, if any. -/
def findTriggerDown (msgs : List Msg) : Nat → Option Nat
  | 0 => if isAiWithCalls (msgs.getD 0 default) then some 0 else none
  | j + 1 =>
    if isAiWithCalls (msgs.getD (j + 1) default) then some (j + 1) else findTriggerDown msgs j

/-- The earliest-tool scan of _truncate_history over the tail (the enumerate
loop with break): index of the first tool message, if any. -/
def firstToolIdx : List Msg → Option Nat
  | [] => none
  | m :: rest =>
    if is_tool_message m then some 0 else (firstToolIdx rest).map (fun n => n + 1)

/-- DatabaseAgent._truncate_history on a history list whose head is the system
prompt. Histories of at most 1 + MAX_KEEP messages are returned unchanged;
otherwise the default cut keeps the last MAX_KEEP messages, and when that tail
contains a tool message, the start index becomes the first AIMessage with
tool_calls found walking backwards from just before the earliest tool of the
tail (the default start is kept if the walk finds none). -/
def truncate_history (hist : List Msg) : List Msg :=
  match hist with
  | [] => []
  | sys :: msgs =>
    if msgs.length ≤ MAX_KEEP then sys :: msgs
    else
      let start0 := msgs.length - MAX_KEEP
      let start :=
        match firstToolIdx (msgs.drop start0) with
        | none => start0
        | some rel =>
          match findTriggerDown msgs (start0 + rel - 1) with
          | some i => i
          | none => start0
      sys :: msgs.drop start

/-- The pending empty-name confirmation payload (self.pending_confirmation). -/
structure PendingCreate where
  table : String
  data : FieldMap
deriving DecidableEq, Repr

/-- The pending field-correction confirmation payload
(self.pending_field_confirmation). pending_record_id is stored only for
updates, and only under a truthiness guard, so a stored identifier is never
zero. -/
structure PendingField where
  table : String
  data : FieldMap
  field : String
  user_value : String
  suggested_value : String
  pending_record_id : Option Nat := none
deriving DecidableEq, Repr

/-- The system prompt (its text never influences any embedded branch;
abbreviated to its opening words). -/
def SYSTEM_PROMPT : String := "You are Minh\x27s Personal AI Copilot"

/-- The mutable state of one DatabaseAgent instance. -/
structure AgentState where
  conversation_history : List Msg
  pending_confirmation : Option PendingCreate := none
  pending_field_confirmation : Option PendingField := none
deriving DecidableEq, Repr

/-- DatabaseAgent.__init__ and reset: fresh history, no pending operations. -/
def initialAgentState : AgentState :=
  { conversation_history := [.system SYSTEM_PROMPT] }

/-- The acceptance vocabulary of process_message. -/
def ACCEPT_WORDS : List String := ["yes", "y", "proceed", "ok", "confirm"]

/-- The decline vocabulary of process_message. -/
def DECLINE_WORDS : List String := ["no", "n", "cancel", "abort"]

/-- The special commands handled before any pending-state check. -/
def RESET_COMMANDS : List String := ["/reset", "/clear", "reset"]

/-- The response formatting shared by both confirmation accept paths. -/
def confirmResponse (result : ToolResult) : String :=
  if result.success then
    let base := "✅ " ++ result.message.getD ""
    match result.record_id with
    | some rid => base ++ "\n\n💡 You can now reference this record by its ID (" ++
        toString rid ++ ") for updates or queries."
    | none => base
  else "❌ Error: " ++ result.error.getD "Unknown error occurred"

/-- The re-prompt emitted while a field correction is pending. -/
def fieldReprompt (pf : PendingField) : String :=
  "⚠️ Please respond with \x27yes\x27 to use \x27" ++ pf.suggested_value ++ "\x27 for the " ++
    pf.field ++ " field, or \x27no\x27 to cancel."

/-- The re-prompt emitted while an empty-name creation is pending. -/
def emptyNameReprompt (pc : PendingCreate) : String :=
  "⚠️ Please respond with \x27yes\x27 to proceed with creating the " ++ pc.table ++
    " with empty name, or \x27no\x27 to cancel."

/-- DatabaseAgent.process_message as a state transition on (AgentState, Store)
returning the reply text. Branches in source order: blank input, the special
reset commands, the pending field-correction confirmation, the pending
empty-name confirmation, and otherwise the LLM tool loop (agent.py lines
589 to 650: app.invoke, history truncation, tool-result extraction and
pending-state capture), which is an external oracle passed in as fallback.
No confirmation branch consults the fallback. -/
def process_message (fallback : AgentState → Store → String → String × AgentState × Store)
    (jsonLoads : String → Option JsonOut)
    (st : AgentState) (store : Store) (user_input : String) :
    String × AgentState × Store :=
  if pyStrip user_input == "" then ("Please provide a message or command.", st, store)
  else if RESET_COMMANDS.contains (pyLower user_input) then
    ("🔄 Conversation reset. Ready for new requests!", initialAgentState, store)
  else
    match st.pending_field_confirmation with
    | some pf =>
      let user_response := pyStrip (pyLower user_input)
      if ACCEPT_WORDS.contains user_response then
        let hist := st.conversation_history ++
          [.human ("Yes, use \x27" ++ pf.suggested_value ++ "\x27 instead of \x27" ++
            pf.user_value ++ "\x27.")]
        let (result, store') :=
          match pf.pending_record_id with
          | some rid =>
            confirm_field_correction jsonLoads pf.table rid pf.field pf.suggested_value pf.data store
          | none =>
            confirm_create_with_corrected_field jsonLoads pf.table pf.data pf.field pf.suggested_value store
        let response := confirmResponse result
        (response,
         { st with conversation_history := hist ++ [.ai response []],
                   pending_field_confirmation := none },
         store')
      else if DECLINE_WORDS.contains user_response then
        let response := "❌ Operation cancelled due to invalid field value. Please use the correct case or choose from the valid options."
        let hist := st.conversation_history ++ [.human "No, cancel the operation.", .ai response []]
        (response,
         { st with conversation_history := hist, pending_field_confirmation := none },
         store)
      else (fieldReprompt pf, st, store)
    | none =>
      match st.pending_confirmation with
      | some pc =>
        let user_response := pyStrip (pyLower user_input)
        if ACCEPT_WORDS.contains user_response then
          let hist := st.conversation_history ++
            [.human ("Yes, proceed with creating " ++ pc.table ++ " with empty name.")]
          let (result, store') := confirm_create_with_empty_name pc.table pc.data store
          let response := confirmResponse result
          (response,
           { st with conversation_history := hist ++ [.ai response []],
                     pending_confirmation := none },
           store')
        else if DECLINE_WORDS.contains user_response then
          let response := "❌ Record creation cancelled. You can try again with a different name."
          let hist := st.conversation_history ++ [.human "No, cancel the creation.", .ai response []]
          (response,
           { st with conversation_history := hist, pending_confirmation := none },
           store)
        else (emptyNameReprompt pc, st, store)
      | none => fallback st store user_input

/-! ### whatsapp_server.py

The module creates ONE DatabaseAgent at import time (line 51) and every
webhook delivery, whatever its from_number, calls that same instance; only the
conversation_threads transcript dict is keyed by phone number. -/

/-- One entry of the conversation_threads dict: the generated thread id and
the transcript of (type, content) message pairs kept in thread state. -/
structure ThreadData where
  thread_id : Nat
  messages : List (String × String)
deriving DecidableEq, Repr

/-- The WhatsApp server state: the conversation_threads dict keyed by phone
number, a fresh-id counter standing in for uuid4, and the single shared
DatabaseAgent together with the store its tools mutate. -/
structure ServerState where
  conversation_threads : List (String × ThreadData)
  nextThreadId : Nat
  agent : AgentState
  store : Store
deriving DecidableEq, Repr

/-- whatsapp_server.get_or_create_thread. -/
def get_or_create_thread (s : ServerState) (phone_number : String) : ServerState :=
  match lookupStr phone_number s.conversation_threads with
  | some _ => s
  | none =>
    { s with
      conversation_threads := s.conversation_threads ++ [(phone_number, ⟨s.nextThreadId, []⟩)],
      nextThreadId := s.nextThreadId + 1 }

/-- Append a message to one thread transcript. -/
def appendThreadMsg (threads : List (String × ThreadData)) (phone ty content : String) :
    List (String × ThreadData) :=
  threads.map (fun kv =>
    if kv.1 == phone then (kv.1, { kv.2 with messages := kv.2.messages ++ [(ty, content)] })
    else kv)

/-- whatsapp_server.process_whatsapp_message: record the inbound text in the
sender thread, run it through the shared database_agent, record and return the
reply (the typing indicator and the outbound HTTP call are I/O side effects
with no bearing on state). -/
def process_whatsapp_message (fallback : AgentState → Store → String → String × AgentState × Store)
    (jsonLoads : String → Option JsonOut)
    (s : ServerState) (from_number message_text : String) : ServerState × String :=
  let s1 := get_or_create_thread s from_number
  let threads1 := appendThreadMsg s1.conversation_threads from_number "human" message_text
  let (ai_response, agent', store') :=
    process_message fallback jsonLoads s1.agent s1.store message_text
  let threads2 := appendThreadMsg threads1 from_number "ai" ai_response
  ({ s1 with conversation_threads := threads2, agent := agent', store := store' }, ai_response)

/-! ## Helper lemmas -/

theorem lookupStr_mem {α : Type} {k : String} {v : α} :
    ∀ {l : List (String × α)}, lookupStr k l = some v → (k, v) ∈ l := by
  intro l
  induction l with
  | nil => intro h; simp [lookupStr] at h
  | cons hd tl ih =>
    intro h
    simp only [lookupStr] at h
    by_cases hk : hd.1 == k
    · rw [if_pos hk] at h
      have h2 : hd.2 = v := by injection h
      have h1 : hd.1 = k := by simpa using hk
      rw [List.mem_cons]
      left
      rw [← h1, ← h2]
    · rw [if_neg hk] at h
      exact List.mem_cons_of_mem _ (ih h)

/-- In every enumeration of VALID_STATUS the lowercased legal values are
pairwise distinct (so a case-insensitive match picks a unique canonical). -/
theorem valid_status_lowered_nodup :
    ∀ p ∈ VALID_STATUS, ∀ q ∈ p.2, (q.2.map pyLower).Nodup := by decide

/-- No table of VALID_STATUS enumerates the name field. -/
theorem valid_status_no_name :
    ∀ p ∈ VALID_STATUS, lookupStr "name" p.2 = none := by decide

/-- The exact-match loop returns the member with the matching lowercasing
whenever the lowered legal values are distinct. -/
theorem findExactMatch_mem {w v : String} :
    ∀ {vals : List String}, (vals.map pyLower).Nodup → v ∈ vals → pyLower w = pyLower v →
      findExactMatch (pyLower w) vals = some v := by
  intro vals
  induction vals with
  | nil => intro _ hv; simp at hv
  | cons hd tl ih =>
    intro hnd hv hcase
    simp only [List.map_cons, List.nodup_cons] at hnd
    simp only [findExactMatch]
    rcases List.mem_cons.mp hv with h | h
    · subst h
      simp [hcase]
    · have hne : pyLower w ≠ pyLower hd := by
        intro heq
        apply hnd.1
        rw [heq.symm, hcase]
        exact List.mem_map_of_mem _ h
      rw [if_neg (by simpa using hne)]
      exact ih hnd.2 h hcase

/-- Validation of the name field always passes the value through as valid
(no table enumerates name). -/
theorem validate_name_always_valid (t v : String) :
    validate_field_value t "name" v = .valid v := by
  unfold validate_field_value
  cases htv : lookupStr t VALID_STATUS with
  | none => rfl
  | some tv =>
    have := valid_status_no_name (t, tv) (lookupStr_mem htv)
    simp [this]

/-! ## Claim theorems -/

/-- C1: the claim states that validate("tasks", "status", "donee"), having no
exact case-insensitive match, returns invalid with the best fuzzy suggestion
("Done", similarity at least 60). The code instead raises NameError on its
first fuzz.ratio evaluation, because utils.py never imports fuzz; callers see
a generic operation failure, never an invalid-with-suggestion result. This
theorem evaluates the embedded source at the failing input. -/
theorem validate_fuzzy_suggestion_name_error :
    validate_field_value "tasks" "status" "donee" = ValidationResult.nameError := by decide

/-- C7: for every enumerated table/field and legal value v, validating any
string equal to v up to letter case returns valid with the canonical stored
casing v. -/
theorem validate_case_insensitive_returns_canonical
    (table field w v : String) (tv : List (String × List String)) (vals : List String)
    (htv : lookupStr table VALID_STATUS = some tv)
    (hvals : lookupStr field tv = some vals)
    (hmem : v ∈ vals) (hcase : pyLower w = pyLower v) :
    validate_field_value table field w = .valid v := by
  have hnd : (vals.map pyLower).Nodup :=
    valid_status_lowered_nodup (table, tv) (lookupStr_mem htv) (field, vals) (lookupStr_mem hvals)
  unfold validate_field_value
  simp only [htv, hvals, findExactMatch_mem hnd hmem hcase]

/-- C7 witness: validate("projects", "priority", "p1") is valid with canonical
"P1". -/
theorem validate_case_insensitive_returns_canonical_witness :
    validate_field_value "projects" "priority" "p1" = .valid "P1" :=
  validate_case_insensitive_returns_canonical "projects" "priority" "p1" "P1"
    [("status", ["Not started", "In progress", "Stuck", "Done"]),
     ("priority", ["P1", "P2", "P3"]),
     ("client_v2", ["Mama Hanh", "Ms Hanh", "Circus Group", "Fully AI", "Gastrofüsterer",
                    "DAO OS", "Mama Le Bao", "Asia Hung", "Clinic OS", "Internal"])]
    ["P1", "P2", "P3"] (by decide) (by decide) (by decide) (by decide)

/-- The blank-name guard accepts exactly the missing, empty or
whitespace-only names of C4. -/
theorem blankName_of_missing_or_blank (data : FieldMap)
    (hname : pyGet data "name" = Value.vnull ∨
      ∃ s, pyGet data "name" = Value.str s ∧ pyStrip s = "") :
    blankName data = true := by
  unfold blankName
  rcases hname with h | ⟨s, h, hs⟩
  · rw [h]; rfl
  · rw [h]
    by_cases hse : s = ""
    · subst hse; rfl
    · have : (Value.str s).truthy = true := by
        simp [Value.str, Value.truthy, Scalar.truthy, hse]
      rw [this]
      simp [Value.str, Value.pyStr, Scalar.pyStr, hs]

/-- C4: for every known table and field-map whose name is missing, empty or
whitespace-only, create_record fails with requires_confirmation and
pending_table equal to the table, writes nothing, and leaves the table row
count unchanged. -/
theorem create_blank_name_no_write
    (jsonLoads : String → Option JsonOut) (table : String) (data : FieldMap) (store : Store)
    (htable : table ∈ MODEL_MAP_TABLES)
    (hname : pyGet data "name" = Value.vnull ∨
      ∃ s, pyGet data "name" = Value.str s ∧ pyStrip s = "") :
    (create_record jsonLoads table data store).1.success = false ∧
    (create_record jsonLoads table data store).1.requires_confirmation = true ∧
    (create_record jsonLoads table data store).1.pending_table = some table ∧
    (create_record jsonLoads table data store).2 = store ∧
    (create_record jsonLoads table data store).2.countOf table = store.countOf table := by
  have hb := blankName_of_missing_or_blank data hname
  simp [create_record, hb, htable]

/-- C4 witness: create("projects", single empty name field) on a store with
one project. -/
theorem create_blank_name_no_write_witness :
    ((create_record (fun _ => none) "projects" [("name", Value.str "")]
        { tables := [("projects", [⟨1, [("name", Value.str "Alpha")]⟩])], nextId := 2 }).1.success
      = false) ∧
    ((create_record (fun _ => none) "projects" [("name", Value.str "")]
        { tables := [("projects", [⟨1, [("name", Value.str "Alpha")]⟩])], nextId := 2 }).1.requires_confirmation
      = true) ∧
    ((create_record (fun _ => none) "projects" [("name", Value.str "")]
        { tables := [("projects", [⟨1, [("name", Value.str "Alpha")]⟩])], nextId := 2 }).1.pending_table
      = some "projects") ∧
    ((create_record (fun _ => none) "projects" [("name", Value.str "")]
        { tables := [("projects", [⟨1, [("name", Value.str "Alpha")]⟩])], nextId := 2 }).2
      = { tables := [("projects", [⟨1, [("name", Value.str "Alpha")]⟩])], nextId := 2 }) ∧
    ((create_record (fun _ => none) "projects" [("name", Value.str "")]
        { tables := [("projects", [⟨1, [("name", Value.str "Alpha")]⟩])], nextId := 2 }).2.countOf "projects"
      = ({ tables := [("projects", [⟨1, [("name", Value.str "Alpha")]⟩])], nextId := 2 } : Store).countOf "projects") :=
  create_blank_name_no_write (fun _ => none) "projects" [("name", Value.str "")]
    { tables := [("projects", [⟨1, [("name", Value.str "Alpha")]⟩])], nextId := 2 }
    (by decide) (Or.inr ⟨"", by decide, by decide⟩)

/-- C5: the claim states that an update whose data contains an invalid
enumerated field surfaces the first failing field as a field-correction
confirmation carrying the record identifier. Because utils.py never imports
fuzz, validate_field_value raises NameError on any non-exact value, the
outer except of update_record swallows it, and the caller receives a generic
failure with requires_field_confirmation absent; no field is written. This
theorem evaluates the embedded source at the failing input
update("tasks", 1, status := "donee") on a store holding tasks row 1. -/
theorem update_invalid_enum_generic_failure :
    (update_record (fun _ => none) "tasks" 1 [("status", Value.str "donee")]
        { tables := [("tasks", [⟨1, [("name", Value.str "Demo")]⟩])], nextId := 2 }).1 =
      { success := false,
        error := some "Failed to update record: name \x27fuzz\x27 is not defined" } ∧
    (update_record (fun _ => none) "tasks" 1 [("status", Value.str "donee")]
        { tables := [("tasks", [⟨1, [("name", Value.str "Demo")]⟩])], nextId := 2 }).2 =
      { tables := [("tasks", [⟨1, [("name", Value.str "Demo")]⟩])], nextId := 2 } := by
  constructor <;> rfl

/-- C2 counterexample: the claim asserts that while a pending operation
exists, EVERY message outside the acceptance and decline vocabularies leaves
the pending state and history unchanged and re-prompts. The input "reset" is
in neither vocabulary, yet process_message handles the reset commands before
any pending-state check: the pending confirmation is discarded and the whole
history is reset. -/
theorem pending_reset_clears_pending_state :
    (pyStrip (pyLower "reset") ∉ ACCEPT_WORDS ∧ pyStrip (pyLower "reset") ∉ DECLINE_WORDS) ∧
    (process_message (fun st store _ => ("", st, store)) (fun _ => none)
        { conversation_history := [.system SYSTEM_PROMPT, .human "add a project", .ai "name?" []],
          pending_confirmation := some ⟨"projects", [("name", Value.str "")]⟩ }
        { tables := [], nextId := 1 } "reset").2.1.pending_confirmation = none ∧
    (process_message (fun st store _ => ("", st, store)) (fun _ => none)
        { conversation_history := [.system SYSTEM_PROMPT, .human "add a project", .ai "name?" []],
          pending_confirmation := some ⟨"projects", [("name", Value.str "")]⟩ }
        { tables := [], nextId := 1 } "reset").2.1.conversation_history =
      [.system SYSTEM_PROMPT] := by
  refine ⟨⟨by decide, by decide⟩, rfl, rfl⟩

/-- C2 (amended): whenever a pending operation exists, an inbound message
that after case-folding and stripping is in neither the acceptance vocabulary
{yes, y, proceed, ok, confirm} nor the decline vocabulary {no, n, cancel,
abort}, AND is not blank and is not one of the special reset commands
(/reset, /clear, reset, which are handled before the pending-state checks),
leaves the agent state - pending operations, conversation history - and the
store unchanged and returns the re-prompt of the same pending question; the
result is the same for every LLM fallback, so no such message is processed as
a new request. -/
theorem pending_nonvocab_reprompts_state_unchanged
    (fallback : AgentState → Store → String → String × AgentState × Store)
    (jsonLoads : String → Option JsonOut) (st : AgentState) (store : Store) (input : String)
    (hpending : st.pending_field_confirmation ≠ none ∨ st.pending_confirmation ≠ none)
    (hblank : pyStrip input ≠ "")
    (hreset : pyLower input ∉ RESET_COMMANDS)
    (hacc : pyStrip (pyLower input) ∉ ACCEPT_WORDS)
    (hdec : pyStrip (pyLower input) ∉ DECLINE_WORDS) :
    (process_message fallback jsonLoads st store input).2.1 = st ∧
    (process_message fallback jsonLoads st store input).2.2 = store ∧
    ((∃ pf, st.pending_field_confirmation = some pf ∧
        (process_message fallback jsonLoads st store input).1 = fieldReprompt pf) ∨
     (st.pending_field_confirmation = none ∧ ∃ pc, st.pending_confirmation = some pc ∧
        (process_message fallback jsonLoads st store input).1 = emptyNameReprompt pc)) := by
  cases hpf : st.pending_field_confirmation with
  | some pf =>
    refine ⟨?_, ?_, Or.inl ⟨pf, rfl, ?_⟩⟩ <;>
      simp [process_message, hpf, hblank, hreset, hacc, hdec]
  | none =>
    cases hpc : st.pending_confirmation with
    | some pc =>
      refine ⟨?_, ?_, Or.inr ⟨rfl, pc, rfl, ?_⟩⟩ <;>
        simp [process_message, hpf, hpc, hblank, hreset, hacc, hdec]
    | none =>
      exfalso
      rcases hpending with h | h
      · exact h hpf
      · exact h hpc

/-- A trivial LLM oracle used only to instantiate concrete scenarios (it is
never reached by the branches under proof). -/
def idFallback : AgentState → Store → String → String × AgentState × Store :=
  fun st store _ => ("", st, store)

/-- A trivial json.loads stand-in for concrete scenarios. -/
def noJson : String → Option JsonOut := fun _ => none

/-- A concrete agent state awaiting a field-correction confirmation. -/
def c2PendingField : PendingField :=
  ⟨"tasks", [("status", Value.str "Stuck")], "status", "Stuck", "Stuck", some 1⟩

/-- A concrete agent state holding c2PendingField. -/
def c2State : AgentState :=
  { conversation_history := [.system SYSTEM_PROMPT],
    pending_field_confirmation := some c2PendingField }

/-- An empty concrete store. -/
def emptyStore : Store := { tables := [], nextId := 1 }

/-- C2 witness: "maybe" while a field correction is pending leaves everything
unchanged and re-emits the pending question. -/
theorem pending_nonvocab_reprompts_state_unchanged_witness :
    (process_message idFallback noJson c2State emptyStore "maybe").2.1 = c2State ∧
    (process_message idFallback noJson c2State emptyStore "maybe").2.2 = emptyStore ∧
    ((∃ pf, c2State.pending_field_confirmation = some pf ∧
        (process_message idFallback noJson c2State emptyStore "maybe").1 = fieldReprompt pf) ∨
     (c2State.pending_field_confirmation = none ∧
      ∃ pc, c2State.pending_confirmation = some pc ∧
        (process_message idFallback noJson c2State emptyStore "maybe").1 = emptyNameReprompt pc)) :=
  pending_nonvocab_reprompts_state_unchanged idFallback noJson c2State emptyStore "maybe"
    (Or.inl (by decide)) (by decide) (by decide) (by decide) (by decide)

/-- C3: the claim asserts that a reply in one conversation never resolves a
pending confirmation created in another. whatsapp_server.py creates ONE
DatabaseAgent at module scope and routes every phone number through it, so
the pending slot is shared: here conversation "111" has a pending empty-name
clients creation, and the reply "yes" arriving from the distinct number "222"
executes that creation (the clients row count rises to 1) and clears the
shared pending slot. This theorem evaluates the embedded server at that
failing input. -/
theorem shared_agent_cross_conversation_resolves :
    (process_whatsapp_message (fun st store _ => ("", st, store)) (fun _ => none)
        { conversation_threads := [("111", ⟨0, [("human", "create a client"), ("ai", "confirm?")]⟩)],
          nextThreadId := 1,
          agent := { conversation_history := [.system SYSTEM_PROMPT],
                     pending_confirmation := some ⟨"clients", [("name", Value.str "")]⟩ },
          store := { tables := [("clients", [])], nextId := 1 } }
        "222" "yes").1.agent.pending_confirmation = none ∧
    (process_whatsapp_message (fun st store _ => ("", st, store)) (fun _ => none)
        { conversation_threads := [("111", ⟨0, [("human", "create a client"), ("ai", "confirm?")]⟩)],
          nextThreadId := 1,
          agent := { conversation_history := [.system SYSTEM_PROMPT],
                     pending_confirmation := some ⟨"clients", [("name", Value.str "")]⟩ },
          store := { tables := [("clients", [])], nextId := 1 } }
        "222" "yes").1.store.countOf "clients" = 1 := by
  constructor <;> rfl

theorem length_insertDesc {α : Type} (key : α → Nat) (x : α) :
    ∀ l : List α, (insertDesc key x l).length = l.length + 1 := by
  intro l
  induction l with
  | nil => rfl
  | cons y ys ih =>
    simp only [insertDesc]
    by_cases h : key x ≤ key y
    · simp [h, ih]
    · simp [h]

theorem length_sortDescBy {α : Type} (key : α → Nat) (l : List α) :
    (sortDescBy key l).length = l.length := by
  have h : ∀ acc : List α,
      (l.foldl (fun acc x => insertDesc key x acc) acc).length = acc.length + l.length := by
    induction l with
    | nil => intro acc; simp
    | cons x xs ih =>
      intro acc
      simp only [List.foldl_cons]
      rw [ih, length_insertDesc]
      simp only [List.length_cons]
      omega
  simpa [sortDescBy] using h []

theorem length_pySlice {α : Type} (l : List α) (limit : Int) :
    (pySlice l limit).length =
      if 0 ≤ limit then min limit.toNat l.length else l.length - (-limit).toNat := by
  unfold pySlice
  by_cases h : 0 ≤ limit
  · simp [h, List.length_take]
  · simp only [if_neg h, List.length_take]
    omega

theorem length_pySlice_mono {α β : Type} {l1 : List α} {l2 : List β} (limit : Int)
    (h : l1.length ≤ l2.length) : (pySlice l1 limit).length ≤ (pySlice l2 limit).length := by
  rw [length_pySlice, length_pySlice]
  by_cases h0 : 0 ≤ limit
  · simp only [if_pos h0]
    omega
  · simp only [if_neg h0]
    omega

theorem searchMatches_length_antitone (simOf : String → String → Nat) (q : String)
    {t1 t2 : Int} (h : t1 ≤ t2) :
    ∀ recs : List Rec,
      (searchMatches simOf q t2 recs).length ≤ (searchMatches simOf q t1 recs).length := by
  intro recs
  induction recs with
  | nil => simp [searchMatches]
  | cons r rest ih =>
    simp only [searchMatches]
    cases recSearchName r with
    | none => exact ih
    | some nm =>
      by_cases h2 : t2 ≤ (simOf (pyLower q) (pyLower nm) : Int)
      · have h1 : t1 ≤ (simOf (pyLower q) (pyLower nm) : Int) := le_trans h h2
        simp only [h2, h1, if_true, if_pos]
        simpa using Nat.succ_le_succ ih
      · by_cases h1 : t1 ≤ (simOf (pyLower q) (pyLower nm) : Int)
        · simp only [h2, h1, if_false, if_pos, if_neg]
          · exact Nat.le_succ_of_le ih
        · simp only [h2, h1, if_neg]
          · exact ih

/-- C8: with table, query, candidates and limit fixed, the number of records
returned by search is monotonically non-increasing in min_similarity (for
every scorer simOf standing in for fuzz.partial_ratio and every suggestion
ranker extractTop standing in for process.extract). -/
theorem search_count_antitone_min_similarity
    (simOf : String → String → Nat) (extractTop : String → List String → Nat → List (String × Nat))
    (table name_query : String) (limit : Int) (store : Store) (t1 t2 : Int) (h : t1 ≤ t2) :
    (search_records_by_name simOf extractTop table name_query limit t2 store).count ≤
    (search_records_by_name simOf extractTop table name_query limit t1 store).count := by
  unfold search_records_by_name
  by_cases htab : table ∈ MODEL_MAP_TABLES
  · simp only [if_neg (not_not_intro htab)]
    have hlen : (sortDescBy (fun m => m.2)
          (searchMatches simOf name_query t2 (store.recordsOf table))).length ≤
        (sortDescBy (fun m => m.2)
          (searchMatches simOf name_query t1 (store.recordsOf table))).length := by
      rw [length_sortDescBy, length_sortDescBy]
      exact searchMatches_length_antitone simOf name_query h (store.recordsOf table)
    simpa using length_pySlice_mono (if 100 < limit then 100 else limit) hlen
  · simp [htab, invalidTableError]

/-- C8 witness: thresholds 10 and 60 on a concrete two-row store. -/
theorem search_count_antitone_min_similarity_witness :
    (search_records_by_name (fun _ _ => 50) (fun _ _ _ => []) "projects" "rite" 10 60
        { tables := [("projects", [⟨1, [("name", Value.str "Ritesh Onboarding")]⟩,
                                   ⟨2, [("name", Value.str "Retail Plan")]⟩])], nextId := 3 }).count ≤
    (search_records_by_name (fun _ _ => 50) (fun _ _ _ => []) "projects" "rite" 10 10
        { tables := [("projects", [⟨1, [("name", Value.str "Ritesh Onboarding")]⟩,
                                   ⟨2, [("name", Value.str "Retail Plan")]⟩])], nextId := 3 }).count :=
  search_count_antitone_min_similarity (fun _ _ => 50) (fun _ _ _ => []) "projects" "rite" 10
    { tables := [("projects", [⟨1, [("name", Value.str "Ritesh Onboarding")]⟩,
                               ⟨2, [("name", Value.str "Retail Plan")]⟩])], nextId := 3 }
    10 60 (by decide)

/-- C6 counterexample: the claim bounds the result count by min(limit, 100)
for EVERY caller-requested limit. The limit field is a plain int and a
negative value reaches Python slicing: with two matching rows and limit -1,
matches[:-1] returns 1 record, while min(-1, 100) = -1, so the bound fails
(the scorer is irrelevant here since min_similarity is 0). -/
theorem search_negative_limit_violates_cap :
    ((search_records_by_name (fun _ _ => 0) (fun _ _ _ => []) "projects" "x" (-1) 0
        { tables := [("projects", [⟨1, [("name", Value.str "Alpha")]⟩,
                                   ⟨2, [("name", Value.str "Beta")]⟩])], nextId := 3 }).count = 1) ∧
    ¬((1 : Int) ≤ min (-1 : Int) 100) := ⟨rfl, by decide⟩

/-- C6 (amended): for every non-negative caller-requested limit (negative
limits fall through to Python slice-from-the-end semantics, where the bound
fails), search returns at most min(limit, 100) records, for every scorer and
suggestion ranker. -/
theorem search_count_le_min_limit_100
    (simOf : String → String → Nat) (extractTop : String → List String → Nat → List (String × Nat))
    (table name_query : String) (limit : Int) (hlimit : 0 ≤ limit)
    (minSim : Int) (store : Store) :
    ((search_records_by_name simOf extractTop table name_query limit minSim store).count : Int) ≤
      min limit 100 := by
  unfold search_records_by_name
  by_cases htab : table ∈ MODEL_MAP_TABLES
  · simp only [if_neg (not_not_intro htab)]
    simp only [List.length_map]
    rw [length_pySlice]
    by_cases hbig : 100 < limit <;> simp [hbig] <;> omega
  · simp only [if_pos htab, invalidTableError]
    simp
    omega

/-- C6 witness: a large limit (1000) on a concrete store stays within
min(1000, 100) = 100. -/
theorem search_count_le_min_limit_100_witness :
    ((search_records_by_name (fun _ _ => 80) (fun _ _ _ => []) "projects" "a" 1000 60
        { tables := [("projects", [⟨1, [("name", Value.str "Alpha")]⟩])], nextId := 2 }).count : Int) ≤
      min (1000 : Int) 100 :=
  search_count_le_min_limit_100 (fun _ _ => 80) (fun _ _ _ => []) "projects" "a" 1000
    (by decide) 60 { tables := [("projects", [⟨1, [("name", Value.str "Alpha")]⟩])], nextId := 2 }

theorem pyGet_cons_self {k : String} {v : Value} {rest : FieldMap} :
    pyGet ((k, v) :: rest) k = v := by simp [pyGet]

theorem pyGet_cons_ne {k0 k : String} (h : k0 ≠ k) (v0 : Value) (rest : FieldMap) :
    pyGet ((k0, v0) :: rest) k = pyGet rest k := by
  unfold pyGet
  rw [List.find?_cons_of_neg]
  simpa using h

theorem processData_keys (jl : String → Option JsonOut) (data : FieldMap) :
    (processData jl data).map Prod.fst = data.map Prod.fst := by
  simp [processData, List.map_map, Function.comp]

theorem pyGet_processData_of_mem (jl : String → Option JsonOut)
    {k : String} {v : Value} :
    ∀ {data : FieldMap}, (data.map Prod.fst).Nodup → (k, v) ∈ data →
      pyGet (processData jl data) k = processField jl k v := by
  intro data
  induction data with
  | nil => intro _ h; simp at h
  | cons kv rest ih =>
    intro hnd hmem
    obtain ⟨k0, v0⟩ := kv
    simp only [List.map_cons, List.nodup_cons] at hnd
    simp only [processData, List.map_cons]
    rcases List.mem_cons.mp hmem with h | h
    · obtain ⟨hk, hv⟩ := Prod.mk.injEq k v k0 v0 ▸ h
      subst hk hv
      exact pyGet_cons_self
    · have hk0 : k0 ≠ k := by
        intro he
        exact hnd.1 (he ▸ List.mem_map_of_mem Prod.fst h)
      rw [pyGet_cons_ne hk0]
      exact ih hnd.2 h

theorem processField_date_unparsable (jl : String → Option JsonOut) {k s : String}
    (hk : k ∈ DATE_FIELDS) (hs : parse_date_string s = none) :
    processField jl k (Value.str s) = Value.vnull := by
  unfold processField
  rw [if_pos hk]
  have : (Value.str s).pyStr = s := rfl
  rw [this, hs]

theorem lookupStr_setTable_self (t : String) (recs : List Rec) :
    ∀ tbls, lookupStr t (setTable tbls t recs) = some recs := by
  intro tbls
  induction tbls with
  | nil => simp [setTable, lookupStr]
  | cons hd tl ih =>
    obtain ⟨t2, r2⟩ := hd
    simp only [setTable]
    by_cases h : t2 == t
    · simp only [if_pos h, lookupStr]
      simp
    · simp only [if_neg h, lookupStr]
      exact ih

theorem recordsOf_insertRow (s : Store) (t : String) (d : FieldMap) :
    ((s.insertRow t d).2).recordsOf t = s.recordsOf t ++ [⟨s.nextId, d⟩] := by
  simp [Store.insertRow, Store.recordsOf, lookupStr_setTable_self]

theorem pyGet_fieldSet_self (k : String) (v : Value) :
    ∀ m : FieldMap, pyGet (fieldSet m k v) k = v := by
  intro m
  induction m with
  | nil => simp [fieldSet, pyGet]
  | cons kv rest ih =>
    obtain ⟨k2, v2⟩ := kv
    simp only [fieldSet]
    by_cases h : k2 == k
    · rw [if_pos h]
      exact pyGet_cons_self
    · rw [if_neg h]
      rw [pyGet_cons_ne (by simpa using h)]
      exact ih

theorem pyGet_fieldSet_ne {k2 k : String} (h : k2 ≠ k) (v : Value) :
    ∀ m : FieldMap, pyGet (fieldSet m k2 v) k = pyGet m k := by
  intro m
  induction m with
  | nil =>
    simp only [fieldSet]
    rw [pyGet_cons_ne h]
  | cons kv rest ih =>
    obtain ⟨k0, v0⟩ := kv
    simp only [fieldSet]
    by_cases h0 : k0 == k2
    · rw [if_pos h0, pyGet_cons_ne h]
      have : k0 = k2 := by simpa using h0
      subst this
      rw [pyGet_cons_ne h]
    · rw [if_neg h0]
      by_cases hk : k0 = k
      · subst hk
        rw [pyGet_cons_self, pyGet_cons_self]
      · rw [pyGet_cons_ne hk, pyGet_cons_ne hk]
        exact ih

theorem pyGet_foldl_fieldSet_of_not_mem {k : String} :
    ∀ (l : FieldMap) (init : FieldMap), k ∉ l.map Prod.fst →
      pyGet (l.foldl (fun acc kv => fieldSet acc kv.1 kv.2) init) k = pyGet init k := by
  intro l
  induction l with
  | nil => intro init _; rfl
  | cons kv rest ih =>
    intro init hk
    simp only [List.map_cons, List.mem_cons, not_or] at hk
    simp only [List.foldl_cons]
    rw [ih _ hk.2, pyGet_fieldSet_ne (Ne.symm hk.1)]

theorem pyGet_foldl_fieldSet_of_mem {k : String} {v : Value} :
    ∀ (l : FieldMap) (init : FieldMap), (l.map Prod.fst).Nodup → (k, v) ∈ l →
      pyGet (l.foldl (fun acc kv => fieldSet acc kv.1 kv.2) init) k = v := by
  intro l
  induction l with
  | nil => intro init _ h; simp at h
  | cons kv rest ih =>
    intro init hnd hmem
    obtain ⟨k0, v0⟩ := kv
    simp only [List.map_cons, List.nodup_cons] at hnd
    simp only [List.foldl_cons]
    rcases List.mem_cons.mp hmem with h | h
    · obtain ⟨hk, hv⟩ := Prod.mk.injEq k v k0 v0 ▸ h
      subst hk hv
      rw [pyGet_foldl_fieldSet_of_not_mem rest _ hnd.1]
      exact pyGet_fieldSet_self k v init
    · exact ih (fieldSet init k0 v0) hnd.2 h

theorem find?_id_map_update (i : Nat) (f : FieldMap) :
    ∀ (l : List Rec) (r : Rec), l.find? (fun r => r.id == i) = some r →
      (l.map (fun r => if r.id == i then (⟨i, f⟩ : Rec) else r)).find?
        (fun r => r.id == i) = some ⟨i, f⟩ := by
  intro l
  induction l with
  | nil => intro r h; simp at h
  | cons a rest ih =>
    intro r h
    by_cases ha : (a.id == i) = true
    · simp only [List.map_cons, if_pos ha]
      rw [List.find?_cons_of_pos]
      simp
    · rw [List.find?_cons_of_neg _ (by simpa using ha)] at h
      simp only [List.map_cons, if_neg ha]
      rw [List.find?_cons_of_neg _ (by simpa using ha)]
      exact ih r h

theorem findRow_setRow (s : Store) (t : String) (i : Nat) (f : FieldMap)
    (r : Rec) (hr : s.findRow t i = some r) :
    (s.setRow t i f).findRow t i = some ⟨i, f⟩ := by
  unfold Store.findRow Store.setRow
  simp only [Store.recordsOf, lookupStr_setTable_self, Option.getD_some]
  exact find?_id_map_update i f (s.recordsOf t) r hr

/-- C10: for every create or update on a known table whose field-map assigns
a date-valued field (deadline, due_date, meeting_date, date_completed) a
string the date parser rejects, the operation neither fails nor asks for any
confirmation - provided, as the claim implicitly assumes, that the rest of the
payload is acceptable (a non-blank name for create; per-field validation
passing for update, which the unbound-fuzz NameError makes equivalent to no
enumerated field carrying a non-exact value): the record is written with that
date field set to None, silently discarding the caller value. -/
theorem unparsable_date_written_as_null
    (jsonLoads : String → Option JsonOut) (table : String) (htable : table ∈ MODEL_MAP_TABLES)
    (data : FieldMap) (hnd : (data.map Prod.fst).Nodup)
    (k s : String) (hk : k ∈ DATE_FIELDS) (hmem : (k, Value.str s) ∈ data)
    (hdate : parse_date_string s = none) (store : Store) :
    (blankName data = false →
      (create_record jsonLoads table data store).1.success = true ∧
      (create_record jsonLoads table data store).1.requires_confirmation = false ∧
      (create_record jsonLoads table data store).1.requires_field_confirmation = false ∧
      (create_record jsonLoads table data store).1.record_id = some store.nextId ∧
      (create_record jsonLoads table data store).2.recordsOf table =
        store.recordsOf table ++ [⟨store.nextId, processData jsonLoads data⟩] ∧
      pyGet (processData jsonLoads data) k = Value.vnull) ∧
    (∀ record_id rec0, store.findRow table record_id = some rec0 →
      checkFields table data = .ok →
      (update_record jsonLoads table record_id data store).1.success = true ∧
      (update_record jsonLoads table record_id data store).1.requires_field_confirmation = false ∧
      ∃ recNew,
        (update_record jsonLoads table record_id data store).2.findRow table record_id =
          some recNew ∧
        pyGet recNew.fields k = Value.vnull) := by
  have hproc : pyGet (processData jsonLoads data) k = Value.vnull := by
    rw [pyGet_processData_of_mem jsonLoads hnd hmem]
    exact processField_date_unparsable jsonLoads hk hdate
  constructor
  · intro hbn
    have hval := validate_name_always_valid table (pyGet data "name").pyStr
    refine ⟨?_, ?_, ?_, ?_, ?_, hproc⟩ <;>
      simp [create_record, htable, hbn, hval, Store.insertRow, Store.recordsOf,
        lookupStr_setTable_self]
  · intro record_id rec0 hfind hok
    have hstep :
        (update_record jsonLoads table record_id data store).2 =
          store.setRow table record_id
            ((processData jsonLoads data).foldl (fun acc kv => fieldSet acc kv.1 kv.2)
              rec0.fields) := by
      simp [update_record, htable, hfind, hok]
    refine ⟨?_, ?_, ?_⟩
    · simp [update_record, htable, hfind, hok]
    · simp [update_record, htable, hfind, hok]
    · refine ⟨⟨record_id,
        (processData jsonLoads data).foldl (fun acc kv => fieldSet acc kv.1 kv.2) rec0.fields⟩,
        ?_, ?_⟩
      · rw [hstep]
        exact findRow_setRow store table record_id _ rec0 hfind
      · have hkeys : ((processData jsonLoads data).map Prod.fst).Nodup := by
          rw [processData_keys]; exact hnd
        have hmem2 : (k, Value.vnull) ∈ processData jsonLoads data := by
          have := List.mem_map_of_mem
            (fun kv : String × Value => (kv.1, processField jsonLoads kv.1 kv.2)) hmem
          simpa [processData, processField_date_unparsable jsonLoads hk hdate] using this
        exact pyGet_foldl_fieldSet_of_mem (processData jsonLoads data) rec0.fields hkeys hmem2

/-- Concrete payload for the C10 witness: a valid name plus a due_date string
no accepted format matches. -/
def c10Data : FieldMap := [("name", Value.str "Call"), ("due_date", Value.str "tomorrow")]

/-- Concrete store for the C10 witness: one existing tasks row. -/
def c10Store : Store := { tables := [("tasks", [⟨1, [("name", Value.str "Old")]⟩])], nextId := 2 }

/-- C10 witness: create and update of a tasks record with due_date
"tomorrow" both succeed without confirmation, storing due_date as None. -/
theorem unparsable_date_written_as_null_witness :
    ((create_record noJson "tasks" c10Data c10Store).1.success = true ∧
     (create_record noJson "tasks" c10Data c10Store).1.requires_confirmation = false ∧
     (create_record noJson "tasks" c10Data c10Store).1.requires_field_confirmation = false ∧
     (create_record noJson "tasks" c10Data c10Store).1.record_id = some c10Store.nextId ∧
     (create_record noJson "tasks" c10Data c10Store).2.recordsOf "tasks" =
       c10Store.recordsOf "tasks" ++ [⟨c10Store.nextId, processData noJson c10Data⟩] ∧
     pyGet (processData noJson c10Data) "due_date" = Value.vnull) ∧
    ((update_record noJson "tasks" 1 c10Data c10Store).1.success = true ∧
     (update_record noJson "tasks" 1 c10Data c10Store).1.requires_field_confirmation = false ∧
     ∃ recNew,
       (update_record noJson "tasks" 1 c10Data c10Store).2.findRow "tasks" 1 = some recNew ∧
       pyGet recNew.fields "due_date" = Value.vnull) := by
  have h := unparsable_date_written_as_null noJson "tasks" (by decide) c10Data (by decide)
    "due_date" "tomorrow" (by decide) (by decide) (by decide) c10Store
  exact ⟨h.1 (by decide), h.2 1 ⟨1, [("name", Value.str "Old")]⟩ (by decide) (by decide)⟩

theorem getD_drop (msgs : List Msg) :
    ∀ (n i : Nat), (msgs.drop n).getD i default = msgs.getD (n + i) default := by
  induction msgs with
  | nil => intro n i; simp
  | cons m rest ih =>
    intro n i
    cases n with
    | zero => simp
    | succ n' =>
      have : n' + 1 + i = (n' + i) + 1 := by omega
      rw [this, List.drop_succ_cons, List.getD_cons_succ]
      exact ih n' i

theorem firstToolIdx_none :
    ∀ {l : List Msg}, firstToolIdx l = none →
      ∀ i, i < l.length → is_tool_message (l.getD i default) = false := by
  intro l
  induction l with
  | nil => intro _ i hi; simp at hi
  | cons m rest ih =>
    intro h i hi
    simp only [firstToolIdx] at h
    by_cases hm : is_tool_message m = true
    · simp [hm] at h
    · rw [if_neg hm] at h
      cases i with
      | zero => simpa using hm
      | succ i' =>
        have hrest : firstToolIdx rest = none := by
          cases hfi : firstToolIdx rest with
          | none => rfl
          | some r => rw [hfi] at h; simp at h
        simp only [List.getD_cons_succ]
        exact ih hrest i' (by simpa using Nat.lt_of_succ_lt_succ hi)

theorem firstToolIdx_some :
    ∀ {l : List Msg} {r : Nat}, firstToolIdx l = some r →
      r < l.length ∧ is_tool_message (l.getD r default) = true := by
  intro l
  induction l with
  | nil => intro r h; simp [firstToolIdx] at h
  | cons m rest ih =>
    intro r h
    simp only [firstToolIdx] at h
    by_cases hm : is_tool_message m = true
    · rw [if_pos hm] at h
      cases h
      exact ⟨by simp, by simpa⟩
    · rw [if_neg hm] at h
      cases hfi : firstToolIdx rest with
      | none => rw [hfi] at h; simp at h
      | some r' =>
        rw [hfi] at h
        simp only [Option.map_some'] at h
        obtain ⟨h1, h2⟩ := ih hfi
        cases h
        exact ⟨by simpa using Nat.succ_lt_succ h1, by simpa [List.getD_cons_succ] using h2⟩

/-- C9 hypothesis: a well-formed history - every tool-result message directly
follows either another tool message of the same run or the AIMessage bearing
the triggering tool_calls. -/
def wellFormedMsgs (msgs : List Msg) : Prop :=
  ∀ i, i < msgs.length → is_tool_message (msgs.getD i default) = true →
    0 < i ∧ (is_tool_message (msgs.getD (i - 1) default) = true ∨
             isAiWithCalls (msgs.getD (i - 1) default) = true)

theorem tool_not_aicalls {m : Msg} (h : is_tool_message m = true) :
    isAiWithCalls m = false := by
  cases m <;> simp_all [is_tool_message, isAiWithCalls]

theorem findTriggerDown_self {msgs : List Msg} {i : Nat}
    (h : isAiWithCalls (msgs.getD i default) = true) : findTriggerDown msgs i = some i := by
  cases i <;> · simp only [findTriggerDown]; rw [h]; rfl

/-- Under well-formedness, every tool message at index e has a triggering
AIMessage with tool_calls at some t < e with only tool messages in between,
and the backwards walk from e - 1 finds exactly that t. -/
theorem trigger_exists {msgs : List Msg} (hwf : wellFormedMsgs msgs) :
    ∀ e, e < msgs.length → is_tool_message (msgs.getD e default) = true →
      ∃ t, t < e ∧ isAiWithCalls (msgs.getD t default) = true ∧
        (∀ k, t < k → k < e → is_tool_message (msgs.getD k default) = true) ∧
        findTriggerDown msgs (e - 1) = some t := by
  intro e
  induction e using Nat.strong_induction_on with
  | _ e ih =>
    intro he htool
    obtain ⟨hpos, hcase⟩ := hwf e he htool
    rcases hcase with htl | hai
    · have he1 : e - 1 < msgs.length := by omega
      obtain ⟨hpos1, _⟩ := hwf (e - 1) he1 htl
      obtain ⟨t, ht1, ht2, ht3, ht4⟩ := ih (e - 1) (by omega) he1 htl
      refine ⟨t, by omega, ht2, ?_, ?_⟩
      · intro k hk1 hk2
        by_cases hke : k = e - 1
        · subst hke; exact htl
        · exact ht3 k hk1 (by omega)
      · obtain ⟨j, hj⟩ : ∃ j, e - 1 = j + 1 := ⟨e - 2, by omega⟩
        have hfalse : isAiWithCalls (msgs.getD (j + 1) default) = false := by
          rw [← hj]; exact tool_not_aicalls htl
        rw [hj]
        simp only [findTriggerDown, hfalse, Bool.false_eq_true, if_false]
        have hjj : j = e - 1 - 1 := by omega
        rw [hjj]
        exact ht4
    · exact ⟨e - 1, by omega, hai, fun k h1 h2 => by omega, findTriggerDown_self hai⟩

/-- C9: for well-formed histories (system prompt head, every tool-result
message preceded by the AIMessage bearing its triggering tool_calls),
truncation keeps the system prompt plus a suffix in which no tool-result
message is separated from its triggering AIMessage: each kept tool message
has its trigger inside the kept window - in particular, when the default cut
would land on a tool message, the window is extended backward to include the
triggering AIMessage. -/
theorem truncate_history_preserves_tool_pairs (sys : Msg) (msgs : List Msg)
    (hwf : wellFormedMsgs msgs) :
    ∃ s, truncate_history (sys :: msgs) = sys :: msgs.drop s ∧
      ∀ j, s ≤ j → j < msgs.length → is_tool_message (msgs.getD j default) = true →
        ∃ t, s ≤ t ∧ t < j ∧ isAiWithCalls (msgs.getD t default) = true ∧
          ∀ k, t < k → k < j → is_tool_message (msgs.getD k default) = true := by
  by_cases hlen : msgs.length ≤ MAX_KEEP
  · refine ⟨0, by simp [truncate_history, hlen], ?_⟩
    intro j _ hjlen htool
    obtain ⟨t, ht1, ht2, ht3, _⟩ := trigger_exists hwf j hjlen htool
    exact ⟨t, Nat.zero_le t, ht1, ht2, ht3⟩
  · cases hfi : firstToolIdx (msgs.drop (msgs.length - MAX_KEEP)) with
    | none =>
      refine ⟨msgs.length - MAX_KEEP, by simp [truncate_history, hlen, hfi], ?_⟩
      intro j hj hjlen htool
      exfalso
      have hno := firstToolIdx_none hfi (j - (msgs.length - MAX_KEEP))
        (by rw [List.length_drop]; omega)
      rw [getD_drop] at hno
      have hj2 : msgs.length - MAX_KEEP + (j - (msgs.length - MAX_KEEP)) = j := by omega
      rw [hj2, htool] at hno
      exact Bool.noConfusion hno
    | some rel =>
      obtain ⟨hrel_lt, hrel_tool⟩ := firstToolIdx_some hfi
      rw [List.length_drop] at hrel_lt
      rw [getD_drop] at hrel_tool
      obtain ⟨t, ht1, ht2, ht3, ht4⟩ :=
        trigger_exists hwf (msgs.length - MAX_KEEP + rel) (by omega) hrel_tool
      refine ⟨t, by simp [truncate_history, hlen, hfi, ht4], ?_⟩
      intro j hj hjlen htool
      obtain ⟨tj, htj1, htj2, htj3, _⟩ := trigger_exists hwf j hjlen htool
      refine ⟨tj, ?_, htj1, htj2, htj3⟩
      by_contra hlt
      push_neg at hlt
      have htltj : t < j := by
        rcases Nat.lt_or_ge t j with h | h
        · exact h
        · exfalso
          have hteqj : t = j := by omega
          rw [hteqj, tool_not_aicalls htool] at ht2
          exact Bool.noConfusion ht2
      have htool_t : is_tool_message (msgs.getD t default) = true := htj3 t hlt htltj
      rw [tool_not_aicalls htool_t] at ht2
      exact Bool.noConfusion ht2

/-- Concrete history for the C9 witness: 18 messages after the system prompt,
with the AI tool-call pair at indices 1 and 2, so the default 16-message cut
would land on the tool result at index 2. -/
def c9Msgs : List Msg :=
  [.human "m0", .ai "calling" ["create_record"], .tool "result"] ++
    List.replicate 15 (.human "chat")

/-- C9 witness: on c9Msgs the kept window contains each tool message together
with its triggering AIMessage. -/
theorem truncate_history_preserves_tool_pairs_witness :
    ∃ s, truncate_history (.system SYSTEM_PROMPT :: c9Msgs) =
        .system SYSTEM_PROMPT :: c9Msgs.drop s ∧
      ∀ j, s ≤ j → j < c9Msgs.length → is_tool_message (c9Msgs.getD j default) = true →
        ∃ t, s ≤ t ∧ t < j ∧ isAiWithCalls (c9Msgs.getD t default) = true ∧
          ∀ k, t < k → k < j → is_tool_message (c9Msgs.getD k default) = true :=
  truncate_history_preserves_tool_pairs (.system SYSTEM_PROMPT) c9Msgs
    (by unfold wellFormedMsgs; decide)

end Dao
